/-
Verification of the eldolar_info.py scraping pipeline
(repository Don-Vargas/tipo_de_cambio, file
src/precios_dolar/usd_mxn_web_scrapping/eldolar_info.py).

The Python module has four functions composed into a pipeline:
  * `download_data_dolar` (Page Extractor): fetch a page, locate <tbody>,
    read per-row bank names from the first cell's span@title attribute,
    and build one record per row whose categories depend on the cell count.
  * `split_dict` (Record Splitter): partition one day's records into three
    bank-keyed dicts (compra / venta / otro).
  * `dict_dataframe` / `Unify_Dataframe` (Series Assembler): build one
    single-date row per day per category and concatenate them.

Shallow embedding choices:
  * Python dicts are association lists `List (String × _)` in insertion
    order; assignment to an existing key replaces the value in place
    (CPython dicts keep the original position), a new key is appended.
  * Dates are `Nat` (Python passes `datetime` objects; only equality and
    hashing of dates matter to the code).
  * Cell text is modelled post-`get_text(strip=True)`: the `text` field is
    the already-stripped string.
  * Fallible Python operations return `Except PyErr`; each constructor of
    `PyErr` names the Python exception the code can raise.
  * `set(...)` followed by `list(...)[0]` (dict_dataframe, line 143-144):
    CPython set iteration order is hash-dependent and unspecified; it is
    modelled as first-occurrence order, so `list(set(l))[0]` becomes
    `(pySet l).head?`.  Every theorem below depends only on whether the
    set is empty or on the chosen date being one of the entries' dates,
    never on which particular element CPython would yield.
-/

import Mathlib

set_option autoImplicit false

namespace ElDolar

/-- The Python exceptions the module can raise, by provenance:
`httpError` = `requests.exceptions.HTTPError` (status != 200, line 30);
`valueErrorNoTbody` = `ValueError` for a missing `<tbody>` (line 39);
`indexError` = `IndexError` from `[0]` / `[-1]` / `[-2]` subscripts
(lines 50, 65, 144); `keyError` = `KeyError` from `details[status]`
(line 150); `concatError` = pandas `ValueError` from `pd.concat([])`
(lines 197-199). -/
inductive PyErr where
  | httpError (status : Nat)
  | valueErrorNoTbody
  | indexError
  | keyError
  | concatError
  deriving DecidableEq, Repr

/-- One `<td>` cell: its (stripped) visible text and, when present, the
`title` attribute of a contained `<span title=...>` element. -/
structure Cell where
  text : String
  spanTitle : Option String
  deriving DecidableEq, Repr

/-- A fetched page as `download_data_dolar` observes it: the HTTP status
code and, if the document has a `<tbody>`, its rows (each row the list of
its `<td>` cells). -/
structure Page where
  status : Nat
  tbody : Option (List (List Cell))
  deriving DecidableEq, Repr

/-- One element of the list `download_data_dolar` returns: the Python dict
`{'banco': …, 'date': …}` plus the optional category keys `'compra'`,
`'venta'`, `'otro'` (line 63-66 adds either `otro` alone or the
`compra`/`venta` pair; an `Option` field is `some` iff the key is in the
dict). -/
structure BankRecord where
  banco : String
  date : Nat
  compra : Option String
  venta : Option String
  otro : Option String
  deriving DecidableEq, Repr

/-- Python `l[-i]` for `i ≥ 1`: the `i`-th element from the end, raising
`IndexError` when the list is shorter than `i`. -/
def pyNeg (l : List String) (i : Nat) : Except PyErr String :=
  if l.length < i then .error .indexError
  else
    match l[l.length - i]? with
    | some v => .ok v
    | none => .error .indexError

/-- Line 50, one row: `title[0].find_all('span', title=True)[0].get('title')`.
`IndexError` if the row has no `<td>` or the first `<td>` has no
`<span>` carrying a `title` attribute; otherwise the attribute's value
(the bank name). -/
def getHeader : List Cell → Except PyErr String
  | [] => .error .indexError
  | c :: _ =>
    match c.spanTitle with
    | some t => .ok t
    | none => .error .indexError

/-- Lines 63-66, one `header, row` pair of the result comprehension:
`{'banco': header, 'date': current_date,
  **({'otro': row[-1]} if len(row) == 4 else
     {'compra': row[-2], 'venta': row[-1]})}`. -/
def rowRecord (header : String) (current_date : Nat) (row : List String) :
    Except PyErr BankRecord :=
  if row.length = 4 then do
    let o ← pyNeg row 1
    .ok ⟨header, current_date, none, none, some o⟩
  else do
    let c ← pyNeg row 2
    let v ← pyNeg row 1
    .ok ⟨header, current_date, some c, some v, none⟩

/-- `download_data_dolar(url, current_date)` (lines 6-68), with the network
fetch abstracted into the `Page` argument: raise `HTTPError` when the
status is not 200; raise `ValueError` when there is no `<tbody>`;
compute `headers` (line 50: the whole comprehension runs before any
record is built, so one malformed row aborts the call with nothing
returned); compute `row_data` per row (lines 53-59); zip and build the
result records (lines 63-66). -/
def download_data_dolar (page : Page) (current_date : Nat) :
    Except PyErr (List BankRecord) :=
  if page.status ≠ 200 then .error (.httpError page.status)
  else
    match page.tbody with
    | none => .error .valueErrorNoTbody
    | some rows => do
      let headers ← rows.mapM getHeader
      let data := rows.map (fun row => row.map Cell.text)
      (headers.zip data).mapM (fun p => rowRecord p.1 current_date p.2)

/-- The inner dict `{'date': date, status: value}` stored by `split_dict`
as a map value: `key` is the status string (`"compra"`, `"venta"` or
`"otro"`) under which `value` is stored. -/
structure SplitEntry where
  date : Nat
  key : String
  value : String
  deriving DecidableEq, Repr

/-- A Python dict from bank name to `SplitEntry`, in insertion order. -/
abbrev Dict := List (String × SplitEntry)

/-- Python dict assignment `m[k] = v`: replace the value in place when the
key is present (CPython keeps the key at its original position; keys of a
dict are unique, so replacing the first match is exact), append the new
pair otherwise. -/
def dinsert : Dict → String → SplitEntry → Dict
  | [], k, v => [(k, v)]
  | p :: t, k, v => if p.1 = k then (k, v) :: t else p :: dinsert t k v

/-- Python dict lookup `m[k]` as an `Option` (used to state properties; the
code itself only assigns). -/
def dlookup (m : Dict) (k : String) : Option SplitEntry :=
  (m.find? (fun p => p.1 = k)).map Prod.snd

/-- The body of `split_dict`'s loop (lines 100-120) for one `entry`:
`if 'compra' in entry: compra_dict[banco] = {'date': date, 'compra': entry['compra']}`
and likewise for `'venta'` and `'otro'` — the three membership tests are
independent. -/
def splitStep (acc : Dict × Dict × Dict) (entry : BankRecord) :
    Dict × Dict × Dict :=
  let c := match entry.compra with
    | some x => dinsert acc.1 entry.banco ⟨entry.date, "compra", x⟩
    | none => acc.1
  let v := match entry.venta with
    | some x => dinsert acc.2.1 entry.banco ⟨entry.date, "venta", x⟩
    | none => acc.2.1
  let o := match entry.otro with
    | some x => dinsert acc.2.2 entry.banco ⟨entry.date, "otro", x⟩
    | none => acc.2.2
  (c, v, o)

/-- `split_dict(data)` (lines 70-123): fold the loop body over the record
list starting from three empty dicts. -/
def split_dict (data : List BankRecord) : Dict × Dict × Dict :=
  data.foldl splitStep ([], [], [])

/-- Deduplication pass behind `pySet`, keeping the first occurrence of
each element; `seen` holds the elements already emitted. -/
def pySetAux (seen : List Nat) : List Nat → List Nat
  | [] => []
  | d :: rest =>
    if seen.contains d then pySetAux seen rest
    else d :: pySetAux (d :: seen) rest

/-- Python `set(...)` on a list of dates, as a deduplicated list.  CPython
iterates a set in a hash-dependent, unspecified order; first-occurrence
order is used here (see the header comment: no theorem depends on the
choice beyond membership and emptiness). -/
def pySet (l : List Nat) : List Nat := pySetAux [] l

/-- One single-date row of a category table: the index value (the date,
line 153) and one labelled cell per bank, in dict order. -/
structure DfRow where
  date : Nat
  cells : List (String × String)
  deriving DecidableEq, Repr

/-- A category's table is the concatenation of its single-date rows;
`pd.concat` stacks them in order (missing columns of a row are simply
absent from its `cells`). -/
abbrev DataFrame := List DfRow

/-- `dict_dataframe(data, status)` (lines 125-158):
`dates = set(item['date'] for item in data.values())`;
`date = list(dates)[0]` — `IndexError` when `data` is empty;
`data_for_df[bank] = details[status]` for each bank — `KeyError` when an
entry was not stored under `status`; the result is the single row indexed
by `date`. -/
def dict_dataframe (data : Dict) (status : String) : Except PyErr DfRow :=
  match (pySet (data.map (fun p => p.2.date))).head? with
  | none => .error .indexError
  | some date => do
    let cells ← data.mapM (fun p =>
      if p.2.key = status then .ok (p.1, p.2.value)
      else (.error .keyError : Except PyErr (String × String)))
    .ok ⟨date, cells⟩

/-- The loop of `Unify_Dataframe` (lines 182-194): per day, split the
records and build the three single-date rows, accumulating three lists;
the first raising day aborts the whole call. -/
def unifyLoop (data : List (List BankRecord)) :
    Except PyErr (List DfRow × List DfRow × List DfRow) :=
  match data with
  | [] => .ok ([], [], [])
  | x :: rest => do
    let s := split_dict x
    let compra ← dict_dataframe s.1 "compra"
    let venta ← dict_dataframe s.2.1 "venta"
    let otro ← dict_dataframe s.2.2 "otro"
    let ls ← unifyLoop rest
    .ok (compra :: ls.1, venta :: ls.2.1, otro :: ls.2.2)

/-- `Unify_Dataframe(data)` (lines 160-201): run the per-day loop, then
`pd.concat` each list (lines 197-199) — pandas raises on an empty list of
frames, which happens exactly when `data` is empty. -/
def Unify_Dataframe (data : List (List BankRecord)) :
    Except PyErr (DataFrame × DataFrame × DataFrame) := do
  let ls ← unifyLoop data
  match ls.1 with
  | [] => .error .concatError
  | _ => .ok ls

/-! ### Helper definitions used to state and prove properties -/

/-- Writing one record into one of the three dicts, abstracted over the
category: `catWrite key g m r` is what the `split_dict` loop body does to
the dict of category `key` (with `g` the record field of that category). -/
def catWrite (key : String) (g : BankRecord → Option String) (m : Dict)
    (r : BankRecord) : Dict :=
  match g r with
  | some x => dinsert m r.banco ⟨r.date, key, x⟩
  | none => m

/-- The entry a single record `r` would contribute for bank `b` in the
category described by `key`/`g` (`none` when `r` is about another bank or
lacks the category). -/
def wr (key : String) (g : BankRecord → Option String) (b : String)
    (r : BankRecord) : Option SplitEntry :=
  if r.banco = b then (g r).map (fun x => ⟨r.date, key, x⟩) else none

/-- The last `some` produced by `f` along a list (later elements win):
the value a sequence of last-write-wins updates leaves behind. -/
def lastSome? {α β : Type} (f : α → Option β) : List α → Option β
  | [] => none
  | a :: t => (lastSome? f t).or (f a)

/-- The single-date row `dict_dataframe` builds from a non-empty dict in
this model: indexed by the first entry's date, one cell per bank in dict
order. -/
def dfRowOf (m : Dict) : DfRow :=
  ⟨(m.map (fun p => p.2.date)).headI, m.map (fun p => (p.1, p.2.value))⟩

/-- `Except.isOk` as a plain Bool, to state "the call returns rather than
raising" without fixing the returned value. -/
def isOkB {α : Type} : Except PyErr α → Bool
  | .ok _ => true
  | .error _ => false

/-! ### Lemmas about the dict model -/

theorem dlookup_nil (b : String) : dlookup [] b = none := rfl

theorem dlookup_dinsert (m : Dict) (k : String) (v : SplitEntry) (b : String) :
    dlookup (dinsert m k v) b = if b = k then some v else dlookup m b := by
  induction m with
  | nil =>
    by_cases h : b = k
    · subst h; simp [dinsert, dlookup, List.find?]
    · have h1 : ¬(k = b) := fun hh => h hh.symm
      simp [dinsert, dlookup, List.find?, h, h1]
  | cons p t ih =>
    by_cases hpk : p.1 = k
    · rw [dinsert, if_pos hpk]
      by_cases hbk : b = k
      · subst hbk
        simp [dlookup, List.find?]
      · have h1 : ¬(k = b) := fun hh => hbk hh.symm
        have h2 : ¬(p.1 = b) := by rw [hpk]; exact h1
        simp [dlookup, List.find?, h1, h2, hbk]
    · rw [dinsert, if_neg hpk]
      by_cases hbp : p.1 = b
      · have hbk : ¬(b = k) := fun hh => hpk (hbp.trans hh)
        simp [dlookup, List.find?, hbp, hbk]
      · have hskip : dlookup (p :: dinsert t k v) b = dlookup (dinsert t k v) b := by
          simp [dlookup, List.find?, hbp]
        rw [hskip, ih]
        by_cases hbk : b = k
        · simp [hbk]
        · simp [hbk, dlookup, List.find?, hbp]

theorem mem_dinsert {m : Dict} {k : String} {v : SplitEntry}
    {p : String × SplitEntry} (h : p ∈ dinsert m k v) :
    p = (k, v) ∨ p ∈ m := by
  induction m with
  | nil => simpa [dinsert] using h
  | cons q t ih =>
    rw [dinsert] at h
    by_cases hqk : q.1 = k
    · rw [if_pos hqk] at h
      rcases List.mem_cons.mp h with h | h
      · exact Or.inl h
      · exact Or.inr (List.mem_cons_of_mem _ h)
    · rw [if_neg hqk] at h
      rcases List.mem_cons.mp h with h | h
      · exact Or.inr (h ▸ List.mem_cons_self _ _)
      · rcases ih h with h | h
        · exact Or.inl h
        · exact Or.inr (List.mem_cons_of_mem _ h)

theorem splitStep_eq (acc : Dict × Dict × Dict) (e : BankRecord) :
    splitStep acc e =
      (catWrite "compra" BankRecord.compra acc.1 e,
       catWrite "venta" BankRecord.venta acc.2.1 e,
       catWrite "otro" BankRecord.otro acc.2.2 e) := rfl

theorem foldl_splitStep (l : List BankRecord) :
    ∀ acc : Dict × Dict × Dict,
      l.foldl splitStep acc =
        (l.foldl (catWrite "compra" BankRecord.compra) acc.1,
         l.foldl (catWrite "venta" BankRecord.venta) acc.2.1,
         l.foldl (catWrite "otro" BankRecord.otro) acc.2.2) := by
  induction l with
  | nil => intro acc; rfl
  | cons a t ih =>
    intro acc
    rw [List.foldl_cons, ih (splitStep acc a), splitStep_eq]
    rfl

theorem split_dict_eq (l : List BankRecord) :
    split_dict l =
      (l.foldl (catWrite "compra" BankRecord.compra) [],
       l.foldl (catWrite "venta" BankRecord.venta) [],
       l.foldl (catWrite "otro" BankRecord.otro) []) :=
  foldl_splitStep l ([], [], [])

theorem dlookup_catWrite (key : String) (g : BankRecord → Option String)
    (m : Dict) (r : BankRecord) (b : String) :
    dlookup (catWrite key g m r) b = (wr key g b r).or (dlookup m b) := by
  cases hg : g r with
  | none =>
    by_cases hb : r.banco = b <;>
      simp [catWrite, wr, hg, hb, Option.none_or]
  | some x =>
    by_cases hb : r.banco = b
    · simp [catWrite, wr, hg, hb, dlookup_dinsert]
    · have hbr : ¬(b = r.banco) := fun hh => hb hh.symm
      simp [catWrite, wr, hg, hb, hbr, dlookup_dinsert, Option.none_or]

theorem dlookup_foldl_catWrite (key : String) (g : BankRecord → Option String)
    (l : List BankRecord) :
    ∀ (m : Dict) (b : String),
      dlookup (l.foldl (catWrite key g) m) b =
        (lastSome? (wr key g b) l).or (dlookup m b) := by
  induction l with
  | nil => intro m b; simp [lastSome?]
  | cons a t ih =>
    intro m b
    rw [List.foldl_cons, ih, dlookup_catWrite, lastSome?, Option.or_assoc]

theorem dlookup_split (l : List BankRecord) (b : String) :
    dlookup (split_dict l).1 b = lastSome? (wr "compra" BankRecord.compra b) l ∧
    dlookup (split_dict l).2.1 b = lastSome? (wr "venta" BankRecord.venta b) l ∧
    dlookup (split_dict l).2.2 b = lastSome? (wr "otro" BankRecord.otro b) l := by
  rw [split_dict_eq]
  refine ⟨?_, ?_, ?_⟩
  · show dlookup (l.foldl (catWrite "compra" BankRecord.compra) []) b = _
    rw [dlookup_foldl_catWrite, dlookup_nil, Option.or_none]
  · show dlookup (l.foldl (catWrite "venta" BankRecord.venta) []) b = _
    rw [dlookup_foldl_catWrite, dlookup_nil, Option.or_none]
  · show dlookup (l.foldl (catWrite "otro" BankRecord.otro) []) b = _
    rw [dlookup_foldl_catWrite, dlookup_nil, Option.or_none]

theorem lastSome?_append {α β : Type} (f : α → Option β) (u w : List α) :
    lastSome? f (u ++ w) = (lastSome? f w).or (lastSome? f u) := by
  induction u with
  | nil => simp [lastSome?, Option.or_none]
  | cons a u ih =>
    rw [List.cons_append, lastSome?, ih, lastSome?, Option.or_assoc]

theorem lastSome?_isSome_of_mem {α β : Type} {f : α → Option β} {l : List α}
    {a : α} (hmem : a ∈ l) (ha : (f a).isSome) : (lastSome? f l).isSome := by
  induction l with
  | nil => cases hmem
  | cons x t ih =>
    rw [lastSome?, Option.isSome_or]
    rcases List.mem_cons.mp hmem with h | h
    · subst h; simp [ha]
    · simp [ih h]

theorem isSome_map_snd {o : Option (String × SplitEntry)} :
    (Option.map Prod.snd o).isSome = o.isSome := by
  cases o <;> rfl

theorem mem_keys_iff (m : Dict) (b : String) :
    b ∈ m.map Prod.fst ↔ (dlookup m b).isSome := by
  rw [dlookup, isSome_map_snd, List.find?_isSome]
  constructor
  · intro h
    rcases List.mem_map.mp h with ⟨p, hp, hpb⟩
    exact ⟨p, hp, by simp [hpb]⟩
  · rintro ⟨p, hp, hpb⟩
    exact List.mem_map.mpr ⟨p, hp, by simpa using hpb⟩

/-! ### Reduction lemmas for the `Except` monad -/

@[simp]
theorem errBind {α β : Type} (e : PyErr) (f : α → Except PyErr β) :
    (Except.error e >>= f) = Except.error e := rfl

@[simp]
theorem okBind {α β : Type} (a : α) (f : α → Except PyErr β) :
    (Except.ok a >>= f) = f a := rfl

@[simp]
theorem pureOk {α : Type} (a : α) : (pure a : Except PyErr α) = Except.ok a := rfl

/-! ### Which exceptions each extractor stage can raise -/

theorem pyNeg_ok {l : List String} {i : Nat} {v : String}
    (h : pyNeg l i = .ok v) : l[l.length - i]? = some v := by
  by_cases hlen : l.length < i
  · rw [pyNeg, if_pos hlen] at h
    cases h
  · rw [pyNeg, if_neg hlen] at h
    cases hg : l[l.length - i]? with
    | none => rw [hg] at h; cases h
    | some w => rw [hg] at h; injection h with hw; rw [← hw]

theorem pyNeg_err {l : List String} {i : Nat} {e : PyErr}
    (h : pyNeg l i = .error e) : e = .indexError := by
  by_cases hlen : l.length < i
  · rw [pyNeg, if_pos hlen] at h
    injection h with he; exact he.symm
  · rw [pyNeg, if_neg hlen] at h
    cases hg : l[l.length - i]? with
    | none => rw [hg] at h; injection h with he; exact he.symm
    | some w => rw [hg] at h; cases h

theorem getHeader_err {row : List Cell} {e : PyErr}
    (h : getHeader row = .error e) : e = .indexError := by
  cases row with
  | nil => injection h with he; exact he.symm
  | cons c t =>
    rw [getHeader] at h
    cases hs : c.spanTitle with
    | none => rw [hs] at h; injection h with he; exact he.symm
    | some x => rw [hs] at h; cases h

theorem rowRecord_err {header : String} {d : Nat} {row : List String} {e : PyErr}
    (h : rowRecord header d row = .error e) : e = .indexError := by
  rw [rowRecord] at h
  by_cases h4 : row.length = 4
  · rw [if_pos h4] at h
    cases h1 : pyNeg row 1 with
    | error e1 => rw [h1, errBind] at h; injection h with he; exact he ▸ pyNeg_err h1
    | ok v1 => rw [h1, okBind] at h; cases h
  · rw [if_neg h4] at h
    cases h2 : pyNeg row 2 with
    | error e2 => rw [h2, errBind] at h; injection h with he; exact he ▸ pyNeg_err h2
    | ok v2 =>
      rw [h2, okBind] at h
      cases h1 : pyNeg row 1 with
      | error e1 => rw [h1, errBind] at h; injection h with he; exact he ▸ pyNeg_err h1
      | ok v1 => rw [h1, okBind] at h; cases h

/-- If every exception `f` can raise is an `IndexError`, the same holds for
mapping `f` over a list (the first raising element decides). -/
theorem mapM_err_shape {α β : Type} (f : α → Except PyErr β)
    (hf : ∀ a e, f a = .error e → e = .indexError) :
    ∀ (l : List α) (e : PyErr), l.mapM f = .error e → e = .indexError := by
  intro l
  induction l with
  | nil => intro e h; cases h
  | cons a t ih =>
    intro e h
    rw [List.mapM_cons] at h
    cases hfa : f a with
    | error e0 => rw [hfa, errBind] at h; injection h with he; exact he ▸ hf a e0 hfa
    | ok b =>
      rw [hfa, okBind] at h
      cases hmt : t.mapM f with
      | error e1 => rw [hmt, errBind] at h; injection h with he; exact he ▸ ih e1 hmt
      | ok bs => rw [hmt, okBind] at h; cases h

/-- If one element makes `f` raise `IndexError` and `IndexError` is the
only exception `f` raises, mapping `f` over the list raises `IndexError`. -/
theorem mapM_err_of_mem {α β : Type} (f : α → Except PyErr β)
    (hf : ∀ a e, f a = .error e → e = .indexError) :
    ∀ (l : List α) (a : α), a ∈ l → f a = .error .indexError →
      l.mapM f = .error .indexError := by
  intro l
  induction l with
  | nil => intro a ha; cases ha
  | cons x t ih =>
    intro a ha hbad
    rw [List.mapM_cons]
    rcases List.mem_cons.mp ha with h | h
    · rw [← h, hbad, errBind]
    · cases hfx : f x with
      | error e0 => rw [errBind, hf x e0 hfx]
      | ok b => rw [okBind, ih a h hbad, errBind]

/-! ### `dict_dataframe` on well-formed non-empty dicts -/

theorem pySet_cons (d : Nat) (ds : List Nat) :
    pySet (d :: ds) = d :: pySetAux [d] ds := rfl

theorem mapM_cells_ok (s : String) :
    ∀ (m : Dict), (∀ p ∈ m, p.2.key = s) →
      (m.mapM (fun p =>
        if p.2.key = s then .ok (p.1, p.2.value)
        else (.error .keyError : Except PyErr (String × String)))) =
      Except.ok (m.map (fun p => (p.1, p.2.value))) := by
  intro m
  induction m with
  | nil => intro _; rfl
  | cons p t ih =>
    intro hkeys
    rw [List.mapM_cons, if_pos (hkeys p (List.mem_cons_self _ _)), okBind,
      ih (fun q hq => hkeys q (List.mem_cons_of_mem _ hq)), okBind, pureOk,
      List.map_cons]

theorem dict_dataframe_of_keys (m : Dict) (s : String) (hne : m ≠ [])
    (hkeys : ∀ p ∈ m, p.2.key = s) :
    dict_dataframe m s = .ok (dfRowOf m) := by
  cases m with
  | nil => exact absurd rfl hne
  | cons p t =>
    rw [dict_dataframe, List.map_cons, pySet_cons, List.head?,
      mapM_cells_ok s (p :: t) hkeys]
    rfl

/-! ### The keys stored by `split_dict` carry the matching category -/

theorem foldl_catWrite_keys (key : String) (g : BankRecord → Option String) :
    ∀ (l : List BankRecord) (m : Dict), (∀ q ∈ m, q.2.key = key) →
      ∀ p ∈ l.foldl (catWrite key g) m, p.2.key = key := by
  intro l
  induction l with
  | nil => intro m hm p hp; exact hm p hp
  | cons a t ih =>
    intro m hm p hp
    refine ih (catWrite key g m a) ?_ p hp
    intro q hq
    cases hg : g a with
    | none => rw [catWrite, hg] at hq; exact hm q hq
    | some x =>
      rw [catWrite, hg] at hq
      rcases mem_dinsert hq with h | h
      · rw [h]
      · exact hm q h

theorem split_keys (l : List BankRecord) :
    (∀ p ∈ (split_dict l).1, p.2.key = "compra") ∧
    (∀ p ∈ (split_dict l).2.1, p.2.key = "venta") ∧
    (∀ p ∈ (split_dict l).2.2, p.2.key = "otro") := by
  rw [split_dict_eq]
  exact ⟨foldl_catWrite_keys _ _ l [] (fun q hq => absurd hq (List.not_mem_nil q)),
    foldl_catWrite_keys _ _ l [] (fun q hq => absurd hq (List.not_mem_nil q)),
    foldl_catWrite_keys _ _ l [] (fun q hq => absurd hq (List.not_mem_nil q))⟩

/-! ### The assembler loop when every category is reported every day -/

theorem unifyLoop_full :
    ∀ (days : List (List BankRecord)),
      (∀ x ∈ days, (split_dict x).1 ≠ [] ∧ (split_dict x).2.1 ≠ [] ∧
        (split_dict x).2.2 ≠ []) →
      unifyLoop days = .ok
        (days.map (fun x => dfRowOf (split_dict x).1),
         days.map (fun x => dfRowOf (split_dict x).2.1),
         days.map (fun x => dfRowOf (split_dict x).2.2)) := by
  intro days
  induction days with
  | nil => intro _; rfl
  | cons x t ih =>
    intro hfull
    have hx := hfull x (List.mem_cons_self _ _)
    have hks := split_keys x
    rw [unifyLoop]
    rw [dict_dataframe_of_keys _ _ hx.1 hks.1, okBind]
    rw [dict_dataframe_of_keys _ _ hx.2.1 hks.2.1, okBind]
    rw [dict_dataframe_of_keys _ _ hx.2.2 hks.2.2, okBind]
    rw [ih (fun y hy => hfull y (List.mem_cons_of_mem _ hy)), okBind]
    rfl

/-! ### Reduction lemmas for `download_data_dolar` -/

theorem download_eq_ok_page (rows : List (List Cell)) (d : Nat) :
    download_data_dolar ⟨200, some rows⟩ d =
      (rows.mapM getHeader >>= fun headers =>
        (headers.zip (rows.map (fun row => row.map Cell.text))).mapM
          (fun p => rowRecord p.1 d p.2)) := rfl

theorem download_eq_http (st : Nat) (tb : Option (List (List Cell))) (d : Nat)
    (hst : st ≠ 200) :
    download_data_dolar ⟨st, tb⟩ d = .error (.httpError st) := by
  simp [download_data_dolar, hst]

theorem download_none_eq (d : Nat) :
    download_data_dolar ⟨200, none⟩ d = .error .valueErrorNoTbody := rfl

theorem isSome_omap {α β : Type} (f : α → β) (o : Option α) :
    (o.map f).isSome = o.isSome := by
  cases o <;> rfl

theorem lastSome?_isSome_congr {α β γ : Type} (f : α → Option β)
    (g : α → Option γ) :
    ∀ l : List α, (∀ a ∈ l, (f a).isSome = (g a).isSome) →
      (lastSome? f l).isSome = (lastSome? g l).isSome := by
  intro l
  induction l with
  | nil => intro _; rfl
  | cons a t ih =>
    intro h
    rw [lastSome?, lastSome?, Option.isSome_or, Option.isSome_or,
      h a (List.mem_cons_self _ _),
      ih (fun r hr => h r (List.mem_cons_of_mem _ hr))]

/-! ### The claims -/

/-- C1: every table row the Page Extractor turns into a record follows the
row-length rule of lines 63-66: a row of exactly 4 cell values produces a
record whose only category is `otro`, equal to the last cell value; a row
of any other cell count produces a record whose categories are exactly
`compra` = second-to-last cell value and `venta` = last cell value. -/
theorem extractor_category_rule (header : String) (d : Nat) (row : List String)
    (rec : BankRecord) (h : rowRecord header d row = .ok rec) :
    (row.length = 4 →
      rec.compra = none ∧ rec.venta = none ∧ rec.otro = row.getLast?) ∧
    (row.length ≠ 4 →
      rec.compra = row[row.length - 2]? ∧ rec.venta = row.getLast? ∧
      rec.otro = none) := by
  rw [rowRecord] at h
  by_cases h4 : row.length = 4
  · rw [if_pos h4] at h
    cases h1 : pyNeg row 1 with
    | error e => rw [h1, errBind] at h; cases h
    | ok v =>
      rw [h1, okBind] at h
      injection h with hrec
      refine ⟨fun _ => ?_, fun hne => absurd h4 hne⟩
      rw [← hrec]
      refine ⟨rfl, rfl, ?_⟩
      rw [List.getLast?_eq_getElem?]
      exact (pyNeg_ok h1).symm
  · rw [if_neg h4] at h
    cases h2 : pyNeg row 2 with
    | error e => rw [h2, errBind] at h; cases h
    | ok c =>
      rw [h2, okBind] at h
      cases h1 : pyNeg row 1 with
      | error e => rw [h1, errBind] at h; cases h
      | ok v =>
        rw [h1, okBind] at h
        injection h with hrec
        refine ⟨fun hyes => absurd hyes h4, fun _ => ?_⟩
        rw [← hrec]
        refine ⟨(pyNeg_ok h2).symm, ?_, rfl⟩
        rw [List.getLast?_eq_getElem?]
        exact (pyNeg_ok h1).symm

/-- Witness for `extractor_category_rule` at the 3-cell fixture row. -/
theorem extractor_category_rule_witness :
    (⟨"BancoX", 1, some "19.10", some "19.50", none⟩ : BankRecord).compra =
      (["X", "19.10", "19.50"] : List String)[
        (["X", "19.10", "19.50"] : List String).length - 2]? ∧
    (⟨"BancoX", 1, some "19.10", some "19.50", none⟩ : BankRecord).venta =
      (["X", "19.10", "19.50"] : List String).getLast? ∧
    (⟨"BancoX", 1, some "19.10", some "19.50", none⟩ : BankRecord).otro = none :=
  (extractor_category_rule "BancoX" 1 ["X", "19.10", "19.50"]
      ⟨"BancoX", 1, some "19.10", some "19.50", none⟩ rfl).2 (by decide)

/-- C6: if the fetched page (status 200, table body present) has any row
whose first cell lacks the expected `span title` attribute, the extractor
raises `IndexError` (the spec MalformedRowError) during the header pass of
line 50, which runs before any record is built: the whole call fails and
no partial record sequence is returned, no matter how many other rows are
well-formed. -/
theorem extractor_malformed_row_fatal (page : Page) (d : Nat)
    (rows : List (List Cell)) (row : List Cell) (c : Cell)
    (h200 : page.status = 200) (htb : page.tbody = some rows)
    (hmem : row ∈ rows) (hfirst : row.head? = some c)
    (htitle : c.spanTitle = none) :
    download_data_dolar page d = .error .indexError := by
  have hbad : getHeader row = .error .indexError := by
    cases row with
    | nil => cases hfirst
    | cons c0 t =>
      injection hfirst with hc0
      rw [getHeader, hc0, htitle]
  have hpage : page = ⟨200, some rows⟩ := by
    cases page
    cases h200
    cases htb
    rfl
  rw [hpage, download_eq_ok_page,
    mapM_err_of_mem getHeader (fun _ _ he => getHeader_err he) rows row hmem hbad,
    errBind]

/-- Witness for `extractor_malformed_row_fatal`: one well-formed row plus
one title-less label row still make the whole day fail. -/
theorem extractor_malformed_row_fatal_witness :
    download_data_dolar
      ⟨200, some [[⟨"19.0", some "GoodBank"⟩, ⟨"19.1", none⟩, ⟨"19.2", none⟩],
                  [⟨"Promedio", none⟩]]⟩ 7 = .error .indexError :=
  extractor_malformed_row_fatal
    ⟨200, some [[⟨"19.0", some "GoodBank"⟩, ⟨"19.1", none⟩, ⟨"19.2", none⟩],
                [⟨"Promedio", none⟩]]⟩ 7
    [[⟨"19.0", some "GoodBank"⟩, ⟨"19.1", none⟩, ⟨"19.2", none⟩],
     [⟨"Promedio", none⟩]]
    [⟨"Promedio", none⟩] ⟨"Promedio", none⟩ rfl rfl (by decide) rfl rfl

/-- C7: the extractor raises the missing-table `ValueError` (the spec
MissingTableError) exactly when the successfully fetched page (status
200) has no `<tbody>`; a non-success status instead raises `HTTPError`
(the spec FetchError) carrying that status, a distinct exception kind.
Both are returned from the single evaluation — the code has no retry
construct. -/
theorem fetch_and_missing_table_errors (page : Page) (d : Nat) :
    (download_data_dolar page d = .error .valueErrorNoTbody ↔
      page.status = 200 ∧ page.tbody = none) ∧
    (page.status ≠ 200 →
      download_data_dolar page d = .error (.httpError page.status)) ∧
    PyErr.httpError page.status ≠ PyErr.valueErrorNoTbody := by
  obtain ⟨st, tb⟩ := page
  by_cases hst : st = 200
  · subst hst
    cases tb with
    | none =>
      exact ⟨⟨fun _ => ⟨rfl, rfl⟩, fun _ => rfl⟩,
        fun h => absurd rfl h, fun h => by cases h⟩
    | some rows =>
      refine ⟨⟨fun hctr => ?_, fun hcontra => ?_⟩,
        fun h => absurd rfl h, fun h => by cases h⟩
      · exfalso
        rw [download_eq_ok_page] at hctr
        cases hm : rows.mapM getHeader with
        | error e =>
          rw [hm, errBind] at hctr
          injection hctr with he
          have hsh := mapM_err_shape getHeader
            (fun _ _ h0 => getHeader_err h0) rows e hm
          rw [hsh] at he
          cases he
        | ok headers =>
          rw [hm, okBind] at hctr
          cases hm2 : (headers.zip (rows.map (fun row => row.map Cell.text))).mapM
              (fun p => rowRecord p.1 d p.2) with
          | error e =>
            rw [hm2] at hctr
            injection hctr with he
            have hsh := mapM_err_shape _
              (fun _ _ h0 => rowRecord_err h0) _ e hm2
            rw [hsh] at he
            cases he
          | ok recs =>
            rw [hm2] at hctr
            cases hctr
      · rcases hcontra with ⟨-, hnone⟩
        cases hnone
  · refine ⟨⟨fun hctr => ?_, fun hcontra => absurd hcontra.1 hst⟩,
      fun _ => download_eq_http st tb d hst, fun h => by cases h⟩
    rw [download_eq_http st tb d hst] at hctr
    injection hctr with he
    cases he

/-- Witness for `fetch_and_missing_table_errors` at a 404 page. -/
theorem fetch_and_missing_table_errors_witness :
    download_data_dolar ⟨404, none⟩ 0 = .error (.httpError 404) ∧
    PyErr.httpError 404 ≠ PyErr.valueErrorNoTbody :=
  ⟨(fetch_and_missing_table_errors ⟨404, none⟩ 0).2.1 (by decide),
   (fetch_and_missing_table_errors ⟨404, none⟩ 0).2.2⟩

/-- C8: `split_dict` on the empty record list returns three empty dicts
(lines 95-123: the loop body never runs).  The Record Splitter never
raises: its embedding is a total function, because on the `BankRecord`
data model every operation the Python body performs — access to the
always-present `banco` and `date` fields, the three key-membership tests,
dict assignment — is total. -/
theorem splitter_empty_and_total : split_dict [] = ([], [], []) := rfl

/-- C9: when every record has one of the two shapes the extractor produces
(both `compra` and `venta`, or only `otro`), the compra dict and the
venta dict returned by `split_dict` have exactly the same set of
bank-name keys: lines 105-114 insert into the two dicts for exactly the
records carrying the compra/venta pair. -/
theorem splitter_compra_venta_same_keys (l : List BankRecord)
    (hshape : ∀ r ∈ l,
      (r.compra.isSome ∧ r.venta.isSome ∧ r.otro = none) ∨
      (r.compra = none ∧ r.venta = none ∧ r.otro.isSome)) :
    ∀ b, b ∈ (split_dict l).1.map Prod.fst ↔
      b ∈ (split_dict l).2.1.map Prod.fst := by
  intro b
  have hwr : ∀ a ∈ l, (wr "compra" BankRecord.compra b a).isSome =
      (wr "venta" BankRecord.venta b a).isSome := by
    intro a ha
    rcases hshape a ha with ⟨hc, hv, -⟩ | ⟨hc, hv, -⟩ <;>
      by_cases hb : a.banco = b <;>
        simp [wr, hb, hc, hv, isSome_omap]
  rw [mem_keys_iff, mem_keys_iff, (dlookup_split l b).1, (dlookup_split l b).2.1,
    lastSome?_isSome_congr _ _ l hwr]

/-- Witness for `splitter_compra_venta_same_keys` on a one-record day. -/
theorem splitter_compra_venta_same_keys_witness :
    "BancoX" ∈ (split_dict [⟨"BancoX", 1, some "19.10", some "19.50", none⟩]).1.map
        Prod.fst ↔
    "BancoX" ∈ (split_dict [⟨"BancoX", 1, some "19.10", some "19.50", none⟩]).2.1.map
        Prod.fst :=
  splitter_compra_venta_same_keys
    [⟨"BancoX", 1, some "19.10", some "19.50", none⟩] (by decide) "BancoX"

/-- C10: the three membership tests in lines 105-120 are independent and
enforce no category exclusivity — a record carrying all of `compra`,
`venta` and `otro` puts its bank into all three dicts. -/
theorem splitter_categories_independent (l : List BankRecord) (r : BankRecord)
    (hmem : r ∈ l) (hc : r.compra.isSome) (hv : r.venta.isSome)
    (ho : r.otro.isSome) :
    r.banco ∈ (split_dict l).1.map Prod.fst ∧
    r.banco ∈ (split_dict l).2.1.map Prod.fst ∧
    r.banco ∈ (split_dict l).2.2.map Prod.fst := by
  refine ⟨?_, ?_, ?_⟩
  · rw [mem_keys_iff, (dlookup_split l r.banco).1]
    exact lastSome?_isSome_of_mem hmem (by simp [wr, isSome_omap, hc])
  · rw [mem_keys_iff, (dlookup_split l r.banco).2.1]
    exact lastSome?_isSome_of_mem hmem (by simp [wr, isSome_omap, hv])
  · rw [mem_keys_iff, (dlookup_split l r.banco).2.2]
    exact lastSome?_isSome_of_mem hmem (by simp [wr, isSome_omap, ho])

/-- Witness for `splitter_categories_independent`. -/
theorem splitter_categories_independent_witness :
    "B" ∈ (split_dict [⟨"B", 3, some "1", some "2", some "3"⟩]).1.map Prod.fst ∧
    "B" ∈ (split_dict [⟨"B", 3, some "1", some "2", some "3"⟩]).2.1.map Prod.fst ∧
    "B" ∈ (split_dict [⟨"B", 3, some "1", some "2", some "3"⟩]).2.2.map Prod.fst :=
  splitter_categories_independent [⟨"B", 3, some "1", some "2", some "3"⟩]
    ⟨"B", 3, some "1", some "2", some "3"⟩ (by decide) rfl rfl rfl

/-- Later writes shadow earlier ones in `lastSome?`: an element `A` whose
contribution is covered by a later element `A'` can be deleted without
changing the result. -/
theorem lastSome?_drop_middle {α β : Type} (f : α → Option β)
    (l1 l2 l3 : List α) (A A' : α) (h : (f A).isSome → (f A').isSome) :
    lastSome? f (l1 ++ A :: (l2 ++ A' :: l3)) =
      lastSome? f (l1 ++ (l2 ++ A' :: l3)) := by
  rw [lastSome?_append, lastSome?_append]
  have hmid : lastSome? f (A :: (l2 ++ A' :: l3)) =
      lastSome? f (l2 ++ A' :: l3) := by
    rw [lastSome?]
    cases hfa : f A with
    | none => rw [Option.or_none]
    | some y =>
      have hA' : (f A').isSome = true := h (by rw [hfa]; rfl)
      have hsome : (lastSome? f (l2 ++ A' :: l3)).isSome = true := by
        rw [lastSome?_append, Option.isSome_or, lastSome?, Option.isSome_or, hA']
        simp
      rcases Option.isSome_iff_exists.mp hsome with ⟨z, hz⟩
      rw [hz]
      rfl
  rw [hmid]

/-- A later record for the same bank covers an earlier record's potential
entry in a category map, provided it carries that category too. -/
theorem wr_isSome_mono (key : String) (g : BankRecord → Option String)
    (b : String) (A A' : BankRecord) (hb : A.banco = A'.banco)
    (hg : (g A).isSome → (g A').isSome) :
    (wr key g b A).isSome → (wr key g b A').isSome := by
  intro hA
  by_cases hAb : A.banco = b
  · rw [wr, if_pos hAb, isSome_omap] at hA
    rw [wr, if_pos (hb.symm.trans hAb), isSome_omap]
    exact hg hA
  · rw [wr, if_neg hAb] at hA
    simp at hA

/-- C5 counterexample: in `[A, A']` with A = a compra/venta record and
A' = an otro record, both for bank "B", removing the earlier record A
changes `split_dict`'s output — the compra dict loses bank "B" — so the
claimed "output equals its output on the list with A removed" fails. -/
theorem splitter_lww_counterexample :
    dlookup (split_dict [⟨"B", 1, some "1", some "2", none⟩,
                         ⟨"B", 1, none, none, some "3"⟩]).1 "B" ≠
      dlookup (split_dict [⟨"B", 1, none, none, some "3"⟩]).1 "B" := by
  decide

/-- C5 (amended): last-write-wins holds per category map.  When records A
(earlier) and A' (later) name the same bank and every category key A
carries is also carried by A', deleting A leaves each of the three dicts
unchanged as a key-to-value mapping.  (When A has a category A' lacks —
A with compra/venta before A' with only otro — A's entries survive; see
the counterexample.) -/
theorem splitter_lww (l1 l2 l3 : List BankRecord) (A A' : BankRecord)
    (hb : A.banco = A'.banco)
    (hc : A.compra.isSome → A'.compra.isSome)
    (hv : A.venta.isSome → A'.venta.isSome)
    (ho : A.otro.isSome → A'.otro.isSome) (b : String) :
    dlookup (split_dict (l1 ++ A :: (l2 ++ A' :: l3))).1 b =
      dlookup (split_dict (l1 ++ (l2 ++ A' :: l3))).1 b ∧
    dlookup (split_dict (l1 ++ A :: (l2 ++ A' :: l3))).2.1 b =
      dlookup (split_dict (l1 ++ (l2 ++ A' :: l3))).2.1 b ∧
    dlookup (split_dict (l1 ++ A :: (l2 ++ A' :: l3))).2.2 b =
      dlookup (split_dict (l1 ++ (l2 ++ A' :: l3))).2.2 b := by
  refine ⟨?_, ?_, ?_⟩
  · rw [(dlookup_split (l1 ++ A :: (l2 ++ A' :: l3)) b).1,
      (dlookup_split (l1 ++ (l2 ++ A' :: l3)) b).1]
    exact lastSome?_drop_middle _ l1 l2 l3 A A'
      (wr_isSome_mono "compra" BankRecord.compra b A A' hb hc)
  · rw [(dlookup_split (l1 ++ A :: (l2 ++ A' :: l3)) b).2.1,
      (dlookup_split (l1 ++ (l2 ++ A' :: l3)) b).2.1]
    exact lastSome?_drop_middle _ l1 l2 l3 A A'
      (wr_isSome_mono "venta" BankRecord.venta b A A' hb hv)
  · rw [(dlookup_split (l1 ++ A :: (l2 ++ A' :: l3)) b).2.2,
      (dlookup_split (l1 ++ (l2 ++ A' :: l3)) b).2.2]
    exact lastSome?_drop_middle _ l1 l2 l3 A A'
      (wr_isSome_mono "otro" BankRecord.otro b A A' hb ho)

/-- Witness for `splitter_lww`: two compra/venta records for bank "B". -/
theorem splitter_lww_witness :
    dlookup (split_dict [⟨"B", 1, some "1", some "2", none⟩,
                         ⟨"B", 2, some "5", some "6", none⟩]).1 "B" =
      dlookup (split_dict [⟨"B", 2, some "5", some "6", none⟩]).1 "B" ∧
    dlookup (split_dict [⟨"B", 1, some "1", some "2", none⟩,
                         ⟨"B", 2, some "5", some "6", none⟩]).2.1 "B" =
      dlookup (split_dict [⟨"B", 2, some "5", some "6", none⟩]).2.1 "B" ∧
    dlookup (split_dict [⟨"B", 1, some "1", some "2", none⟩,
                         ⟨"B", 2, some "5", some "6", none⟩]).2.2 "B" =
      dlookup (split_dict [⟨"B", 2, some "5", some "6", none⟩]).2.2 "B" :=
  splitter_lww [] [] [] ⟨"B", 1, some "1", some "2", none⟩
    ⟨"B", 2, some "5", some "6", none⟩ rfl (fun _ => rfl) (fun _ => rfl)
    (fun h => h) "B"

/-- C4 counterexample: a compra dict holding entries with two different
dates (1 and 2) does not make the Assembler fail — `dict_dataframe`
returns a row, and no `InconsistentDateError` exists in the code. -/
theorem assembler_no_date_check_counterexample :
    isOkB (dict_dataframe
      [("A", ⟨1, "compra", "10"⟩), ("B", ⟨2, "compra", "11"⟩)] "compra") =
      true := rfl

/-- C4 (amended): `dict_dataframe` performs no date-consistency check.
For every non-empty map whose entries are stored under `status` — whether
or not the entries share one date — it builds the single row of lines
146-153, indexed by an arbitrarily chosen element of the set of the
entries' dates (`date = list(dates)[0]`, line 144; first-occurrence order
in this model), with one cell per bank; it never fails with an
`InconsistentDateError`-like exception, which the code does not define. -/
theorem assembler_no_date_check (m : Dict) (s : String) (hne : m ≠ [])
    (hkeys : ∀ p ∈ m, p.2.key = s) :
    dict_dataframe m s = .ok (dfRowOf m) ∧
    (dfRowOf m).date ∈ m.map (fun p => p.2.date) ∧
    (dfRowOf m).cells = m.map (fun p => (p.1, p.2.value)) := by
  refine ⟨dict_dataframe_of_keys m s hne hkeys, ?_, rfl⟩
  cases m with
  | nil => exact absurd rfl hne
  | cons p t => exact List.mem_cons_self _ _

/-- Witness for `assembler_no_date_check` at a two-date map — the very
input the claim says must fail. -/
theorem assembler_no_date_check_witness :
    dict_dataframe [("A", ⟨1, "compra", "10"⟩), ("B", ⟨2, "compra", "11"⟩)]
        "compra" =
      .ok (dfRowOf [("A", ⟨1, "compra", "10"⟩), ("B", ⟨2, "compra", "11"⟩)]) ∧
    (dfRowOf [("A", ⟨1, "compra", "10"⟩), ("B", ⟨2, "compra", "11"⟩)]).date ∈
      ([("A", ⟨1, "compra", "10"⟩), ("B", ⟨2, "compra", "11"⟩)] : Dict).map
        (fun p => p.2.date) ∧
    (dfRowOf [("A", ⟨1, "compra", "10"⟩), ("B", ⟨2, "compra", "11"⟩)]).cells =
      ([("A", ⟨1, "compra", "10"⟩), ("B", ⟨2, "compra", "11"⟩)] : Dict).map
        (fun p => (p.1, p.2.value)) :=
  assembler_no_date_check
    [("A", ⟨1, "compra", "10"⟩), ("B", ⟨2, "compra", "11"⟩)] "compra"
    (by decide) (by decide)

/-- C2 counterexample: a single day reporting only the `otro` category
(one 4-cell-style record) has empty compra and venta maps; the claim says
such a day contributes no row and causes no error, but `Unify_Dataframe`
raises `IndexError` — from `list(dates)[0]` on the empty compra dict. -/
theorem assembler_row_count_counterexample :
    Unify_Dataframe [[⟨"BancoX", 2, none, none, some "19.45"⟩]] =
      .error .indexError := rfl

/-- C2 (amended): a day whose map for some category is empty makes the
Assembler raise `IndexError` at `list(dates)[0]` (line 144) instead of
being skipped; when every input day's split is non-empty in all three
categories (and there is at least one day, since `pd.concat([])` raises),
each day contributes exactly one row to each category's table, so every
table's row count equals the number of input days — which is then also
the number of days with a non-empty map for that category. -/
theorem assembler_row_count (days : List (List BankRecord)) (hne : days ≠ [])
    (hfull : ∀ x ∈ days, (split_dict x).1 ≠ [] ∧ (split_dict x).2.1 ≠ [] ∧
      (split_dict x).2.2 ≠ []) :
    Unify_Dataframe days = .ok
      (days.map (fun x => dfRowOf (split_dict x).1),
       days.map (fun x => dfRowOf (split_dict x).2.1),
       days.map (fun x => dfRowOf (split_dict x).2.2)) ∧
    (days.map (fun x => dfRowOf (split_dict x).1)).length = days.length ∧
    (days.map (fun x => dfRowOf (split_dict x).2.1)).length = days.length ∧
    (days.map (fun x => dfRowOf (split_dict x).2.2)).length = days.length := by
  refine ⟨?_, List.length_map _ _, List.length_map _ _, List.length_map _ _⟩
  rw [Unify_Dataframe, unifyLoop_full days hfull, okBind]
  cases days with
  | nil => exact absurd rfl hne
  | cons x t => rfl

/-- A one-day input on which every category is reported, for the
`assembler_row_count` witness. -/
def fullDay : List (List BankRecord) :=
  [[⟨"BancoX", 1, some "19.10", some "19.50", none⟩,
    ⟨"BancoY", 1, none, none, some "19.45"⟩]]

/-- Witness for `assembler_row_count` on `fullDay`. -/
theorem assembler_row_count_witness :
    Unify_Dataframe fullDay = .ok
      (fullDay.map (fun x => dfRowOf (split_dict x).1),
       fullDay.map (fun x => dfRowOf (split_dict x).2.1),
       fullDay.map (fun x => dfRowOf (split_dict x).2.2)) ∧
    (fullDay.map (fun x => dfRowOf (split_dict x).1)).length = fullDay.length ∧
    (fullDay.map (fun x => dfRowOf (split_dict x).2.1)).length =
      fullDay.length ∧
    (fullDay.map (fun x => dfRowOf (split_dict x).2.2)).length =
      fullDay.length :=
  assembler_row_count fullDay (by decide) (by decide)

/-- Day 1 of the spec's round-trip fixture: one 3-cell row, bank "BancoX",
cell texts `["X", "19.10", "19.50"]`. -/
def fixturePage1 : Page :=
  ⟨200, some [[⟨"X", some "BancoX"⟩, ⟨"19.10", none⟩, ⟨"19.50", none⟩]]⟩

/-- Day 2 of the spec's round-trip fixture: one 4-cell row, bank "BancoX",
cell texts `["X", "—", "19.40", "19.45"]`. -/
def fixturePage2 : Page :=
  ⟨200, some [[⟨"X", some "BancoX"⟩, ⟨"—", none⟩, ⟨"19.40", none⟩,
               ⟨"19.45", none⟩]]⟩

/-- C3 counterexample: on the spec's two-day fixture the pipeline does not
yield the three one-row tables the claim describes: the Extractor output
is as expected, but `Unify_Dataframe` on it raises `IndexError` (while
processing day 1, whose otro map is empty), producing no tables. -/
theorem roundtrip_fixture_counterexample :
    download_data_dolar fixturePage1 1 =
      .ok [⟨"BancoX", 1, some "19.10", some "19.50", none⟩] ∧
    download_data_dolar fixturePage2 2 =
      .ok [⟨"BancoX", 2, none, none, some "19.45"⟩] ∧
    Unify_Dataframe [[⟨"BancoX", 1, some "19.10", some "19.50", none⟩],
                     [⟨"BancoX", 2, none, none, some "19.45"⟩]] =
      .error .indexError :=
  ⟨rfl, rfl, rfl⟩

/-- C3 (amended): Extractor and Splitter behave exactly as the claim
describes on the two-day fixture — day 1 yields compra "19.10" and venta
"19.50" for "BancoX", day 2 yields otro "19.45" — but the Assembler then
fails with `IndexError` (day 1 has an empty otro map, day 2 empty compra
and venta maps), so the claimed compra/venta/otro tables are never
produced. -/
theorem roundtrip_fixture :
    download_data_dolar fixturePage1 1 =
      .ok [⟨"BancoX", 1, some "19.10", some "19.50", none⟩] ∧
    download_data_dolar fixturePage2 2 =
      .ok [⟨"BancoX", 2, none, none, some "19.45"⟩] ∧
    split_dict [⟨"BancoX", 1, some "19.10", some "19.50", none⟩] =
      ([("BancoX", ⟨1, "compra", "19.10"⟩)],
       [("BancoX", ⟨1, "venta", "19.50"⟩)], []) ∧
    split_dict [⟨"BancoX", 2, none, none, some "19.45"⟩] =
      ([], [], [("BancoX", ⟨2, "otro", "19.45"⟩)]) ∧
    Unify_Dataframe [[⟨"BancoX", 1, some "19.10", some "19.50", none⟩],
                     [⟨"BancoX", 2, none, none, some "19.45"⟩]] =
      .error .indexError :=
  ⟨rfl, rfl, rfl, rfl, rfl⟩

end ElDolar
